import Mathlib

/-!
Verification development for the `simple-rust-ecs` repository.

The repository holds three storage-strategy variants of the same toy
entity-component system:
  * `src/main.rs`        — global `OnceCell<HashMap<Uuid, T>>` stores, uuid
                           entity ids, per-entity drop closures; namespace
                           `MainEcs` below.
  * `src/main copy.rs`   — a per-entity dynamic list of runtime-tagged
                           component values; namespace `ListEcs` below.
  * `src/main copy 2.rs` — fixed 256-slot arrays indexed by a `u32` id from
                           an atomic counter; namespace `ArrEcs` below.

A `Uuid` is an opaque join key whose only used operations are equality and
hashing; it is embedded as `Nat`.  The component structs `Collide` and
`MoveTo` carry no fields in the source, so they are embedded as fieldless
structures.
-/

abbrev Uuid := Nat

structure Collide deriving DecidableEq, Inhabited

structure MoveTo deriving DecidableEq, Inhabited

namespace MainEcs

/-- The semantics of `HashMap` insert used by `Collide::insert` /
`MoveTo::insert` (`src/main.rs` lines 62-67, 98-103): insert-or-replace at
the key. -/
def mapInsert (m : Uuid → Option α) (id : Uuid) (v : α) : Uuid → Option α :=
  fun k => if k = id then some v else m k

/-- The semantics of `HashMap::remove` used by `Collide::drop` /
`MoveTo::drop` (`src/main.rs` lines 69-73, 105-109). -/
def mapRemove (m : Uuid → Option α) (id : Uuid) : Uuid → Option α :=
  fun k => if k = id then none else m k

/-- Reading through a `OnceCell<HashMap<..>>` after `get_or_init`: an
uninitialized cell behaves as the empty map. -/
def orInit (m : Option (Uuid → Option α)) : Uuid → Option α :=
  m.getD (fun _ => none)

/-- The process-wide mutable state of `src/main.rs`: the two
`static mut` component stores `COLLIDES` (line 60) and `MOVE_TOS`
(line 96).  `none` is the uninitialized `OnceCell` state. -/
structure World where
  collides : Option (Uuid → Option Collide)
  moveTos : Option (Uuid → Option MoveTo)

/-- The observable contents of the two stores (what `get` returns for each
id), ignoring the unobservable initialized/uninitialized cell distinction. -/
structure StoreView where
  collides : Uuid → Option Collide
  moveTos : Uuid → Option MoveTo

def World.view (w : World) : StoreView :=
  ⟨orInit w.collides, orInit w.moveTos⟩

/-- `COLLIDES.get_or_init(|| HashMap::default())` (`src/main.rs` line 64,
78, 84): initializes the cell with the empty map when unset. -/
def World.initCollides (w : World) : World :=
  { w with collides := some (orInit w.collides) }

/-- `MOVE_TOS.get_or_init(|| HashMap::default())`. -/
def World.initMoveTos (w : World) : World :=
  { w with moveTos := some (orInit w.moveTos) }

/-- `Collide::insert` (`src/main.rs` lines 62-67): `get_or_init` then
`HashMap::insert(id, self)`. -/
def Collide.insert (c : Collide) (id : Uuid) (w : World) : World :=
  { w with collides := some (mapInsert (orInit w.collides) id c) }

/-- `MoveTo::insert` (`src/main.rs` lines 98-103). -/
def MoveTo.insert (c : MoveTo) (id : Uuid) (w : World) : World :=
  { w with moveTos := some (mapInsert (orInit w.moveTos) id c) }

/-- `Collide::drop` (`src/main.rs` lines 69-73):
`COLLIDES.get_mut().unwrap().remove(&id)`.  The `unwrap` aborts when the
cell was never initialized, hence the `Option` result; on an initialized
store it is `HashMap::remove`. -/
def Collide.drop (id : Uuid) (w : World) : Option World :=
  match w.collides with
  | none => none
  | some m => some { w with collides := some (mapRemove m id) }

/-- `MoveTo::drop` (`src/main.rs` lines 105-109). -/
def MoveTo.drop (id : Uuid) (w : World) : Option World :=
  match w.moveTos with
  | none => none
  | some m => some { w with moveTos := some (mapRemove m id) }

/-- The closed set of component types of the program (`Collide`,
`MoveTo`); the type parameter `T: Component` of `add_component`
(`src/main.rs` line 17) ranges over exactly these.  Both are fieldless, so
the tag determines the attached value. -/
inductive CompTag
  | collide
  | moveTo
deriving DecidableEq

/-- Dispatch of `component.insert(id)` (`src/main.rs` line 19) over the
component type. -/
def CompTag.insertComp : CompTag → Uuid → World → World
  | .collide, id, w => Collide.insert ⟨⟩ id w
  | .moveTo, id, w => MoveTo.insert ⟨⟩ id w

/-- Dispatch of the captured drop closure `move || T::drop(id)`
(`src/main.rs` line 20). -/
def CompTag.dropComp : CompTag → Uuid → World → Option World
  | .collide, id, w => Collide.drop id w
  | .moveTo, id, w => MoveTo.drop id w

/-- `Entity` (`src/main.rs` lines 5-8): a uuid plus the pushed drop
closures.  Each closure `move || T::drop(id)` is defunctionalized as the
pair of the component tag and the captured id. -/
structure Entity where
  id : Uuid
  drop_functions : List (CompTag × Uuid)
deriving DecidableEq

/-- `Entity::new` (`src/main.rs` lines 11-16).  `Uuid::new_v4()` draws a
fresh random id; the id is taken as a parameter supplied by the
environment. -/
def Entity.new (id : Uuid) : Entity :=
  ⟨id, []⟩

/-- `Entity::add_component` (`src/main.rs` lines 17-22): forwards the value
to the component type's store, then pushes the drop closure. -/
def Entity.add_component (e : Entity) (t : CompTag) (w : World) : Entity × World :=
  ({ e with drop_functions := e.drop_functions ++ [(t, e.id)] },
   t.insertComp e.id w)

/-- The loop of `Drop for Entity` (`src/main.rs` lines 25-31): run each
drained drop closure in push order; a drop closure that aborts
(uninitialized store) aborts the whole destruction. -/
def runDrops : List (CompTag × Uuid) → World → Option World
  | [], w => some w
  | (t, id) :: rest, w =>
    match t.dropComp id w with
    | none => none
    | some w1 => runDrops rest w1

/-- `Drop for Entity` (`src/main.rs` lines 25-31): `drain(..)` empties
`drop_functions` and each drained closure runs once; the drained handle is
returned alongside the updated stores. -/
def Entity.dropE (e : Entity) (w : World) : Option (World × Entity) :=
  (runDrops e.drop_functions w).map (fun w1 => (w1, { e with drop_functions := [] }))

/-- `new_player` (`src/main.rs` lines 38-42). -/
def new_player (id : Uuid) (w : World) : Entity × World :=
  let p := (Entity.new id).add_component .collide w
  p.1.add_component .moveTo p.2

/-- `new_wall` (`src/main.rs` lines 44-46). -/
def new_wall (id : Uuid) (w : World) : Entity × World :=
  (Entity.new id).add_component .collide w

/-- The query types of the program: the four base `ComponentCombination`
impls (`&Collide`, `&mut Collide`, `&MoveTo`, `&mut MoveTo`,
`src/main.rs` lines 76-88, 111-123) closed under the generic pair impl
`(T0, TB)` (lines 235-243), which nests for arbitrary arity. -/
inductive Query
  | collideRef
  | collideMut
  | moveToRef
  | moveToMut
  | pair (a b : Query)

/-- The result type of a query (the `Self` of the corresponding
`ComponentCombination` impl); references are embedded as the referenced
values. -/
def Query.Result : Query → Type
  | .collideRef => Collide
  | .collideMut => Collide
  | .moveToRef => MoveTo
  | .moveToMut => MoveTo
  | .pair a b => a.Result × b.Result

/-- `ComponentCombination::filter` with its store side effect
(`get_or_init` can initialize a cell).  Base cases read the entity's id in
the corresponding store (`src/main.rs` lines 76-88, 111-123); the pair case
(lines 238-242) runs the left sub-filter, returns `none` on its failure via
`?`, and otherwise runs the right sub-filter. -/
def Query.filterSt : (q : Query) → Entity → World → Option q.Result × World
  | .collideRef, e, w =>
    let w1 := w.initCollides
    (orInit w1.collides e.id, w1)
  | .collideMut, e, w =>
    let w1 := w.initCollides
    (orInit w1.collides e.id, w1)
  | .moveToRef, e, w =>
    let w1 := w.initMoveTos
    (orInit w1.moveTos e.id, w1)
  | .moveToMut, e, w =>
    let w1 := w.initMoveTos
    (orInit w1.moveTos e.id, w1)
  | .pair a b, e, w =>
    match a.filterSt e w with
    | (none, w1) => (none, w1)
    | (some x, w1) =>
      match b.filterSt e w1 with
      | (none, w2) => (none, w2)
      | (some y, w2) => (some (x, y), w2)

/-- The pure reading of `filter` against a store view. -/
def Query.filterV : (q : Query) → Entity → StoreView → Option q.Result
  | .collideRef, e, v => v.collides e.id
  | .collideMut, e, v => v.collides e.id
  | .moveToRef, e, v => v.moveTos e.id
  | .moveToMut, e, v => v.moveTos e.id
  | .pair a b, e, v =>
    match a.filterV e v with
    | none => none
    | some x =>
      match b.filterV e v with
      | none => none
      | some y => some (x, y)

/-- `get_components` (`src/main.rs` lines 225-233): loop over the entities
in order, `filter` each, push the successes. -/
def get_components (q : Query) : List Entity → World → List q.Result × World
  | [], w => ([], w)
  | e :: es, w =>
    match q.filterSt e w with
    | (some c, w1) =>
      let p := get_components q es w1
      (c :: p.1, p.2)
    | (none, w1) => get_components q es w1

/-- Whether every slot of the query is an immutable (`&T`) access. -/
def Query.immut : Query → Bool
  | .collideRef => true
  | .moveToRef => true
  | .collideMut => false
  | .moveToMut => false
  | .pair a b => a.immut && b.immut

/-- Number of sub-query slots of the join that access the `COLLIDES`
store. -/
def Query.collideSlots : Query → Nat
  | .collideRef => 1
  | .collideMut => 1
  | .moveToRef => 0
  | .moveToMut => 0
  | .pair a b => a.collideSlots + b.collideSlots

/-- Number of sub-query slots of the join that access the `MOVE_TOS`
store. -/
def Query.moveToSlots : Query → Nat
  | .collideRef => 0
  | .collideMut => 0
  | .moveToRef => 1
  | .moveToMut => 1
  | .pair a b => a.moveToSlots + b.moveToSlots

/-- Modelled from the spec: the well-formedness predicate on joins — each
component type appears at most once among the sub-queries (spec section
4.3, aliasing rule).  The source has no such check: the generic `(T0, TB)`
impl (`src/main.rs` lines 235-243) places no constraint ruling out
duplicate component types. -/
def Query.wellFormedQ (q : Query) : Prop :=
  q.collideSlots ≤ 1 ∧ q.moveToSlots ≤ 1

instance (q : Query) : Decidable q.wellFormedQ := by
  unfold Query.wellFormedQ
  infer_instance

/-- A registered system: a query type plus the callback bound to it.  The
callback's observable behavior is abstracted as its returned value. -/
structure SystemReg (α : Type) where
  q : Query
  callback : List q.Result → α

/-- The closure built by `App::add_system` (`src/main.rs` lines 190-193):
collect the system's query over the entities, then call the callback on the
result. -/
def wrapSystem (s : SystemReg α) : List Entity → World → α × World :=
  fun es w =>
    let p := get_components s.q es w
    (s.callback p.1, p.2)

/-- `App` (`src/main.rs` lines 175-177): the ordered list of type-erased
wrapped systems. -/
structure App (α : Type) where
  systems : List (List Entity → World → α × World)

/-- `App::new` (`src/main.rs` lines 180-184). -/
def App.new : App α :=
  ⟨[]⟩

/-- `App::add_system` (`src/main.rs` lines 185-195): append the wrapped
closure. -/
def App.add_system (app : App α) (q : Query) (f : List q.Result → α) : App α :=
  { systems := app.systems ++ [wrapSystem ⟨q, f⟩] }

/-- The loop of `App::run` (`src/main.rs` lines 196-200): call each system
on the entity list, in order, threading the store state. -/
def runSystems : List (List Entity → World → α × World) → List Entity → World → List α × World
  | [], _, w => ([], w)
  | s :: rest, es, w =>
    let p := s es w
    let r := runSystems rest es p.2
    (p.1 :: r.1, r.2)

/-- `App::run` (`src/main.rs` lines 196-200). -/
def App.run (app : App α) (es : List Entity) (w : World) : List α × World :=
  runSystems app.systems es w

/-- An `App` built by registering a list of systems in order, starting from
`App::new`. -/
def App.ofList (l : List (SystemReg α)) : App α :=
  l.foldl (fun app s => app.add_system s.q s.callback) App.new

end MainEcs

namespace ListEcs

/-- The runtime-tagged component values held in `Entity.components`
(`src/main copy.rs` line 4, `Vec<Box<dyn Any>>`): the component type set of
the program is closed (`Collide`, `MoveTo`), so `dyn Any` boxes are a tagged
union of the two. -/
inductive AnyComponent
  | collide (c : Collide)
  | moveTo (m : MoveTo)
deriving DecidableEq

/-- `Entity` (`src/main copy.rs` lines 3-5): the per-entity dynamic list of
attached component values. -/
structure Entity where
  components : List AnyComponent
deriving DecidableEq

/-- `Entity::new` (`src/main copy.rs` lines 8-12). -/
def Entity.new : Entity :=
  ⟨[]⟩

/-- `Entity::add_component` (`src/main copy.rs` lines 13-16): push the
value. -/
def Entity.add_component (e : Entity) (c : AnyComponent) : Entity :=
  ⟨e.components ++ [c]⟩

/-- `component.downcast_ref::<Collide>()` (`src/main copy.rs` line 44). -/
def downcastCollide : AnyComponent → Option Collide
  | .collide c => some c
  | .moveTo _ => none

/-- `component.downcast_ref::<MoveTo>()` (`src/main copy.rs` line 61). -/
def downcastMoveTo : AnyComponent → Option MoveTo
  | .collide _ => none
  | .moveTo m => some m

/-- The scan loop of the `filter` impls (`src/main copy.rs` lines 42-49,
59-66): return the first successful downcast. -/
def findFirst (f : AnyComponent → Option α) : List AnyComponent → Option α
  | [] => none
  | c :: rest =>
    match f c with
    | some x => some x
    | none => findFirst f rest

/-- `ComponentCombination for &Collide` (`src/main copy.rs` lines 41-50). -/
def filterCollide (e : Entity) : Option Collide :=
  findFirst downcastCollide e.components

/-- `ComponentCombination for &MoveTo` (`src/main copy.rs` lines 58-67). -/
def filterMoveTo (e : Entity) : Option MoveTo :=
  findFirst downcastMoveTo e.components

/-- `get_components` (`src/main copy.rs` lines 148-158), generic over the
`T::filter` of the query type. -/
def get_components (filt : Entity → Option α) : List Entity → List α
  | [] => []
  | e :: es =>
    match filt e with
    | some c => c :: get_components filt es
    | none => get_components filt es

end ListEcs

namespace ArrEcs

/-- `u32` modulus: `AtomicU32::fetch_add` wraps on overflow. -/
def U32MOD : Nat := 4294967296

/-- `ID.fetch_add(1, Relaxed)` (`src/main copy 2.rs` line 12): returns the
previous counter value and stores the wrapped successor. -/
def fetch_add (st : Nat) : Nat × Nat :=
  (st, (st + 1) % U32MOD)

/-- `Entity` (`src/main copy 2.rs` lines 3-6). -/
structure Entity where
  id : Nat
deriving DecidableEq

/-- `Entity::new` (`src/main copy 2.rs` lines 10-14): draw the id from the
global atomic counter. -/
def Entity.new (st : Nat) : Entity × Nat :=
  ((⟨(fetch_add st).1⟩ : Entity), (fetch_add st).2)

/-- The counter value after `n` entity creations, starting from the initial
`AtomicU32::new(0)` (`src/main copy 2.rs` line 8). -/
def stateAfter : Nat → Nat
  | 0 => 0
  | n + 1 => (Entity.new (stateAfter n)).2

/-- The id issued to the `n`-th entity creation (0-based). -/
def idIssued (n : Nat) : Nat :=
  (Entity.new (stateAfter n)).1.id

/-- The fixed-capacity dense-array backend `COLLIDES: [Option<Collide>; 256]`
(`src/main copy 2.rs` line 48). -/
def CollideSlots := Fin 256 → Option Collide

/-- The all-empty initial array (`[COLLIDE_NONE; 256]`). -/
def emptyCollideSlots : CollideSlots :=
  fun _ => none

/-- `Collide::insert` for the array backend (`src/main copy 2.rs` lines
49-55): `COLLIDES[id as usize] = Some(self)`.  Indexing past the end aborts
deterministically (Rust bounds check), hence the `Option` result; in-bounds
it updates exactly the slot `id`. -/
def Collide.insertArr (c : Collide) (id : Nat) (s : CollideSlots) : Option CollideSlots :=
  if _h : id < 256 then
    some (fun j => if (j : Nat) = id then some c else s j)
  else none

/-- `ComponentCombination for &Collide` for the array backend
(`src/main copy 2.rs` lines 57-61): checked `get` then `as_ref`. -/
def filterCollideArr (s : CollideSlots) (e : Entity) : Option Collide :=
  if h : e.id < 256 then s ⟨e.id, h⟩ else none

/-- `Entity::add_component` (`src/main copy 2.rs` lines 15-18):
`component.insert(self.id); self`, threading the array store and its
possible bounds abort. -/
def Entity.add_component (e : Entity) (c : Collide) (s : CollideSlots) :
    Option (Entity × CollideSlots) :=
  (Collide.insertArr c e.id s).map (fun s2 => (e, s2))

/-- Scope exit of an `Entity` handle in `src/main copy 2.rs`: `Entity`
derives `Copy` (line 3) and has no `Drop` impl, and the `Component` trait
(lines 21-23) declares only `insert` — the file contains no remove hook at
all — so destroying an entity runs no code and leaves every store
unchanged. -/
def Entity.dropHandle (_e : Entity) (s : CollideSlots) : CollideSlots :=
  s

/-- `get_components` (`src/main copy 2.rs` lines 191-199), generic over the
`T::filter` of the query type. -/
def get_components (filt : Entity → Option α) : List Entity → List α
  | [] => []
  | e :: es =>
    match filt e with
    | some c => c :: get_components filt es
    | none => get_components filt es

end ArrEcs

/-! ## Helper lemmas -/

namespace MainEcs

theorem view_initCollides (w : World) : w.initCollides.view = w.view := rfl

theorem view_initMoveTos (w : World) : w.initMoveTos.view = w.view := rfl

/-- `filter`'s result is the pure reading of the initial store view, and
its only store effect is cell initialization, which changes no store
content. -/
theorem filterSt_spec (q : Query) (e : Entity) (w : World) :
    (q.filterSt e w).1 = q.filterV e w.view ∧ ((q.filterSt e w).2).view = w.view := by
  induction q generalizing w with
  | collideRef => exact ⟨rfl, rfl⟩
  | collideMut => exact ⟨rfl, rfl⟩
  | moveToRef => exact ⟨rfl, rfl⟩
  | moveToMut => exact ⟨rfl, rfl⟩
  | pair a b iha ihb =>
    have ha := iha w
    rcases hfa : a.filterSt e w with ⟨oa, w1⟩
    rw [hfa] at ha
    dsimp only at ha
    cases oa with
    | none =>
      refine ⟨?_, ?_⟩
      · simp only [Query.filterSt, hfa, Query.filterV, ← ha.1]
      · simp only [Query.filterSt, hfa]
        exact ha.2
    | some x =>
      have hb := ihb w1
      rcases hfb : b.filterSt e w1 with ⟨ob, w2⟩
      rw [hfb] at hb
      dsimp only at hb
      have hb1 : ob = b.filterV e w.view := by rw [hb.1, ha.2]
      have hb2 : w2.view = w.view := by rw [hb.2, ha.2]
      cases ob with
      | none =>
        refine ⟨?_, ?_⟩
        · simp only [Query.filterSt, hfa, hfb, Query.filterV, ← ha.1, ← hb1]
        · simp only [Query.filterSt, hfa, hfb]
          exact hb2
      | some y =>
        refine ⟨?_, ?_⟩
        · simp only [Query.filterSt, hfa, hfb, Query.filterV, ← ha.1, ← hb1]
        · simp only [Query.filterSt, hfa, hfb]
          exact hb2

/-- `get_components` returns, in order, the successful `filter` results
against the initial store view, and leaves every store's contents
unchanged. -/
theorem get_components_spec (q : Query) (es : List Entity) (w : World) :
    (get_components q es w).1 = es.filterMap (fun e => q.filterV e w.view) ∧
    ((get_components q es w).2).view = w.view := by
  induction es generalizing w with
  | nil => exact ⟨rfl, rfl⟩
  | cons e es ih =>
    have hf := filterSt_spec q e w
    rcases hq : q.filterSt e w with ⟨oc, w1⟩
    rw [hq] at hf
    have ihw := ih w1
    cases oc with
    | none =>
      refine ⟨?_, ?_⟩
      · simp only [get_components, hq, List.filterMap_cons, ← hf.1, ihw.1, hf.2]
      · simp only [get_components, hq]
        rw [ihw.2, hf.2]
    | some c =>
      refine ⟨?_, ?_⟩
      · simp only [get_components, hq, List.filterMap_cons, ← hf.1, ihw.1, hf.2]
      · simp only [get_components, hq]
        rw [ihw.2, hf.2]

theorem filterSt_fst (q : Query) (e : Entity) (w : World) :
    (q.filterSt e w).1 = q.filterV e w.view :=
  (filterSt_spec q e w).1

theorem filterSt_view (q : Query) (e : Entity) (w : World) :
    ((q.filterSt e w).2).view = w.view :=
  (filterSt_spec q e w).2

theorem get_components_fst (q : Query) (es : List Entity) (w : World) :
    (get_components q es w).1 = es.filterMap (fun e => q.filterV e w.view) :=
  (get_components_spec q es w).1

theorem get_components_view (q : Query) (es : List Entity) (w : World) :
    ((get_components q es w).2).view = w.view :=
  (get_components_spec q es w).2

/-- Success of the pair filter view is the conjunction of the sub-filters'
successes. -/
theorem filterV_pair_isSome (a b : Query) (e : Entity) (v : StoreView) :
    ((Query.pair a b).filterV e v).isSome
      = ((a.filterV e v).isSome && (b.filterV e v).isSome) := by
  show (Query.filterV (.pair a b) e v).isSome = _
  cases ha : a.filterV e v with
  | none => simp [Query.filterV, ha]
  | some x =>
    cases hb : b.filterV e v with
    | none => simp [Query.filterV, ha, hb]
    | some y => simp [Query.filterV, ha, hb]

end MainEcs

namespace ListEcs

/-- The list-backend `get_components` loop is the ordered `filterMap`. -/
theorem get_components_eq_filterMap (filt : Entity → Option α) (es : List Entity) :
    get_components filt es = es.filterMap filt := by
  induction es with
  | nil => rfl
  | cons e es ih =>
    cases hf : filt e with
    | none => simp [get_components, hf, List.filterMap_cons, ih]
    | some c => simp [get_components, hf, List.filterMap_cons, ih]

end ListEcs

namespace ArrEcs

/-- The atomic counter after `n` creations is `n` modulo `2 ^ 32`. -/
theorem stateAfter_eq (n : Nat) : stateAfter n = n % U32MOD := by
  induction n with
  | zero => rfl
  | succ n ih =>
    show (Entity.new (stateAfter n)).2 = (n + 1) % U32MOD
    rw [ih]
    show (n % U32MOD + 1) % U32MOD = (n + 1) % U32MOD
    conv_rhs => rw [Nat.add_mod]
    norm_num [U32MOD]

/-- The id issued to the `n`-th creation is `n` modulo `2 ^ 32`. -/
theorem idIssued_eq (n : Nat) : idIssued n = n % U32MOD := by
  show (Entity.new (stateAfter n)).1.id = n % U32MOD
  rw [show (Entity.new (stateAfter n)).1.id = stateAfter n from rfl, stateAfter_eq]

end ArrEcs

/-! ## Claim theorems -/

/-- C1: for every query type and entity list, `get_components` applies the
query's `filter` to each entity of the list in population order and returns
exactly the ordered sequence of successful results; entities whose `filter`
returns `none` are skipped and contribute no entry.  The per-entity
`filter` result is the pure lookup in the current store view; the same
collect law holds for the list-backend variant. -/
theorem C1_collect_is_ordered_filterMap :
    (∀ (q : MainEcs.Query) (e : MainEcs.Entity) (w : MainEcs.World),
        (q.filterSt e w).1 = q.filterV e w.view) ∧
    (∀ (q : MainEcs.Query) (es : List MainEcs.Entity) (w : MainEcs.World),
        (MainEcs.get_components q es w).1
          = es.filterMap (fun e => q.filterV e w.view)) ∧
    (∀ (α : Type) (filt : ListEcs.Entity → Option α) (es : List ListEcs.Entity),
        ListEcs.get_components filt es = es.filterMap filt) :=
  ⟨fun q e w => MainEcs.filterSt_fst q e w,
   fun q es w => MainEcs.get_components_fst q es w,
   fun _ filt es => ListEcs.get_components_eq_filterMap filt es⟩

/-- C2: a joined query's filter succeeds exactly when every sub-query
succeeds for the entity, evaluating left-to-right and short-circuiting on
the first failure; the joined collect is no longer than either sub-collect
and counts exactly the entities possessing both; pair composition nests to
arbitrary arity (joining three is joining one with a nested pair, in either
association). -/
theorem C2_joined_query_laws :
    (∀ (a b : MainEcs.Query) (e : MainEcs.Entity) (w : MainEcs.World),
        (((MainEcs.Query.pair a b).filterSt e w).1).isSome
          = (((a.filterSt e w).1).isSome && ((b.filterSt e w).1).isSome)) ∧
    (∀ (a b : MainEcs.Query) (e : MainEcs.Entity) (w : MainEcs.World),
        (a.filterSt e w).1 = none →
          ((MainEcs.Query.pair a b).filterSt e w).1 = none) ∧
    (∀ (a b : MainEcs.Query) (es : List MainEcs.Entity) (w : MainEcs.World),
        ((MainEcs.get_components (.pair a b) es w).1).length
          ≤ min ((MainEcs.get_components a es w).1).length
              ((MainEcs.get_components b es w).1).length) ∧
    (∀ (a b : MainEcs.Query) (es : List MainEcs.Entity) (w : MainEcs.World),
        ((MainEcs.get_components (.pair a b) es w).1).length
          = es.countP (fun e =>
              ((a.filterSt e w).1).isSome && ((b.filterSt e w).1).isSome)) ∧
    (∀ (a b c : MainEcs.Query) (e : MainEcs.Entity) (w : MainEcs.World),
        (((MainEcs.Query.pair (.pair a b) c).filterSt e w).1).isSome
          = (((MainEcs.Query.pair a (.pair b c)).filterSt e w).1).isSome) := by
  refine ⟨?_, ?_, ?_, ?_, ?_⟩
  · intro a b e w
    rw [MainEcs.filterSt_fst, MainEcs.filterSt_fst, MainEcs.filterSt_fst,
      MainEcs.filterV_pair_isSome]
  · intro a b e w ha
    rw [MainEcs.filterSt_fst] at ha ⊢
    simp only [MainEcs.Query.filterV, ha]
  · intro a b es w
    simp only [MainEcs.get_components_fst, List.length_filterMap_eq_countP]
    refine le_min ?_ ?_
    · refine List.countP_mono_left ?_
      intro x _ h
      rw [MainEcs.filterV_pair_isSome, Bool.and_eq_true] at h
      exact h.1
    · refine List.countP_mono_left ?_
      intro x _ h
      rw [MainEcs.filterV_pair_isSome, Bool.and_eq_true] at h
      exact h.2
  · intro a b es w
    simp only [MainEcs.get_components_fst, List.length_filterMap_eq_countP,
      MainEcs.filterV_pair_isSome, MainEcs.filterSt_fst]
  · intro a b c e w
    rw [MainEcs.filterSt_fst, MainEcs.filterSt_fst, MainEcs.filterV_pair_isSome,
      MainEcs.filterV_pair_isSome, MainEcs.filterV_pair_isSome,
      MainEcs.filterV_pair_isSome, Bool.and_assoc]

/-- Witness for C2: a failing left sub-query short-circuits the join on a
concrete world. -/
theorem C2_joined_query_laws_w :
    ((MainEcs.Query.pair .moveToRef .collideRef).filterSt (MainEcs.Entity.new 0)
        (MainEcs.World.mk none none)).1 = none :=
  C2_joined_query_laws.2.1 .moveToRef .collideRef (MainEcs.Entity.new 0)
    (MainEcs.World.mk none none) rfl

/-- C3 (code-bug evidence): the join `(&mut Collide, &Collide)` accesses
the `Collide` store twice, so it is ill-formed under the spec's aliasing
rule, yet the code has no rejection: the generic pair impl accepts it and
`filter` runs and succeeds on an entity whose id is in the `COLLIDES`
store, producing both accesses into the same store for the same entity. -/
theorem C3_illformed_join_runs :
    ¬ (MainEcs.Query.pair .collideMut .collideRef).wellFormedQ ∧
    ((MainEcs.Query.pair .collideMut .collideRef).filterSt (MainEcs.Entity.new 0)
        (MainEcs.Collide.insert ⟨⟩ 0 (MainEcs.World.mk none none))).1
      = some (⟨⟩, ⟨⟩) := by
  constructor
  · decide
  · rfl

/-- C5 (counterexample): in the cited `src/main copy.rs` list backend,
attaching `Collide` twice does not overwrite anything — `add_component`
appends, so after the double attach the entity's component list holds both
values, length 2, the first value still present at the head — refuting the
claim's "the first is silently overwritten (last-write-wins)" for that
variant. -/
theorem C5_list_attach_appends :
    ((ListEcs.Entity.add_component
        (ListEcs.Entity.add_component ListEcs.Entity.new
          (ListEcs.AnyComponent.collide ⟨⟩))
        (ListEcs.AnyComponent.collide ⟨⟩)).components
      = [ListEcs.AnyComponent.collide ⟨⟩, ListEcs.AnyComponent.collide ⟨⟩]) ∧
    ((ListEcs.Entity.add_component
        (ListEcs.Entity.add_component ListEcs.Entity.new
          (ListEcs.AnyComponent.collide ⟨⟩))
        (ListEcs.AnyComponent.collide ⟨⟩)).components.length = 2) :=
  ⟨rfl, rfl⟩

/-- C5 (amended): the attach-twice policy is per variant.  In the hash-map
variant (`src/main.rs`) the second value wins: the map `insert` is
insert-or-replace, the store holds the last attached value, and a
single-type query returns exactly one result — the last value.  In the
per-entity-list variant (`src/main copy.rs`) a second attach appends
instead of overwriting — the entity retains both values — and a
single-type query still returns exactly one result per entity, never two,
namely the first attached value (the scan stops at the first successful
downcast). -/
theorem C5_attach_overwrite_policy :
    (∀ (α : Type) (m : Uuid → Option α) (id : Uuid) (v1 v2 : α) (k : Uuid),
        MainEcs.mapInsert (MainEcs.mapInsert m id v1) id v2 k
          = MainEcs.mapInsert m id v2 k) ∧
    (∀ (w : MainEcs.World) (id : Uuid) (c1 c2 : Collide),
        MainEcs.orInit
            ((MainEcs.Collide.insert c2 id (MainEcs.Collide.insert c1 id w)).collides) id
          = some c2) ∧
    (∀ (w : MainEcs.World) (id : Uuid) (c1 c2 : Collide),
        (MainEcs.get_components .collideRef [MainEcs.Entity.new id]
            (MainEcs.Collide.insert c2 id (MainEcs.Collide.insert c1 id w))).1 = [c2]) ∧
    (∀ (c1 c2 : Collide),
        (ListEcs.Entity.add_component
            (ListEcs.Entity.add_component ListEcs.Entity.new (.collide c1))
            (.collide c2)).components
          = [ListEcs.AnyComponent.collide c1, ListEcs.AnyComponent.collide c2]) ∧
    (∀ (c1 c2 : Collide),
        ListEcs.filterCollide
            (ListEcs.Entity.add_component
              (ListEcs.Entity.add_component ListEcs.Entity.new (.collide c1))
              (.collide c2))
          = some c1) ∧
    (∀ (c1 c2 : Collide),
        (ListEcs.get_components ListEcs.filterCollide
            [ListEcs.Entity.add_component
              (ListEcs.Entity.add_component ListEcs.Entity.new (.collide c1))
              (.collide c2)]).length = 1) := by
  refine ⟨?_, ?_, ?_, ?_, ?_, ?_⟩
  · intro α m id v1 v2 k
    by_cases h : k = id <;> simp [MainEcs.mapInsert, h]
  · intro w id c1 c2
    simp [MainEcs.Collide.insert, MainEcs.orInit, MainEcs.mapInsert]
  · intro w id c1 c2
    simp [MainEcs.get_components, MainEcs.Query.filterSt, MainEcs.World.initCollides,
      MainEcs.Collide.insert, MainEcs.orInit, MainEcs.mapInsert, MainEcs.Entity.new]
  · intro c1 c2
    rfl
  · intro c1 c2
    rfl
  · intro c1 c2
    rfl

/-- C7 (counterexample to the claim as stated): the id counter is a `u32`
and `fetch_add` wraps on overflow, so creation number `0` and creation
number `2 ^ 32` are distinct creations issued the same id. -/
theorem C7_id_reused_after_wrap :
    ArrEcs.idIssued 0 = ArrEcs.idIssued 4294967296 ∧ (0 : Nat) ≠ 4294967296 := by
  refine ⟨?_, by norm_num⟩
  rw [ArrEcs.idIssued_eq, ArrEcs.idIssued_eq]
  norm_num [ArrEcs.U32MOD]

/-- C7 (amended): among the first `2 ^ 32` entity creations of a program
run, distinct creations are issued distinct ids (the monotonic atomic
counter does not repeat before it wraps). -/
theorem C7_ids_unique_before_wrap :
    ∀ i j : Nat, i < 4294967296 → j < 4294967296 → i ≠ j →
      ArrEcs.idIssued i ≠ ArrEcs.idIssued j := by
  intro i j hi hj hne
  have hi2 : i % ArrEcs.U32MOD = i := Nat.mod_eq_of_lt (by simpa [ArrEcs.U32MOD] using hi)
  have hj2 : j % ArrEcs.U32MOD = j := Nat.mod_eq_of_lt (by simpa [ArrEcs.U32MOD] using hj)
  rw [ArrEcs.idIssued_eq, ArrEcs.idIssued_eq, hi2, hj2]
  exact hne

/-- Witness for the amended C7 at two concrete creations. -/
theorem C7_ids_unique_before_wrap_w :
    ArrEcs.idIssued 0 ≠ ArrEcs.idIssued 1 :=
  C7_ids_unique_before_wrap 0 1 (by norm_num) (by norm_num) (by norm_num)

/-- C9: for the fixed-capacity dense-array backend, inserting at an id
beyond the capacity is a deterministically detectable fatal outcome
(`none`, the bounds-check abort) that leaves every slot unreadable as
corrupted — no store value is produced at all — and every successful insert
changes only the slot of its own id, never the slot of a different id. -/
theorem C9_array_insert_capacity_safe :
    (∀ (c : Collide) (id : Nat) (s : ArrEcs.CollideSlots),
        256 ≤ id → ArrEcs.Collide.insertArr c id s = none) ∧
    (∀ (c : Collide) (id : Nat) (s s2 : ArrEcs.CollideSlots),
        ArrEcs.Collide.insertArr c id s = some s2 →
          id < 256 ∧
          (∀ j : Fin 256, (j : Nat) ≠ id → s2 j = s j) ∧
          (∀ j : Fin 256, (j : Nat) = id → s2 j = some c)) := by
  constructor
  · intro c id s h
    rw [ArrEcs.Collide.insertArr, dif_neg (by omega)]
  · intro c id s s2 h
    rw [ArrEcs.Collide.insertArr] at h
    split at h
    · next hlt =>
      cases h
      refine ⟨hlt, ?_, ?_⟩
      · intro j hj
        simp [if_neg hj]
      · intro j hj
        simp [if_pos hj]
    · exact absurd h (by simp)

/-- Witness for C9: an out-of-range insert on the concrete empty array is
rejected, and an in-range insert at id 3 leaves slot 4 untouched. -/
theorem C9_array_insert_capacity_safe_w :
    ArrEcs.Collide.insertArr ⟨⟩ 300 ArrEcs.emptyCollideSlots = none ∧
    ((fun j : Fin 256 => if (j : Nat) = 3 then some (⟨⟩ : Collide)
        else ArrEcs.emptyCollideSlots j) : ArrEcs.CollideSlots) ⟨4, by norm_num⟩
      = ArrEcs.emptyCollideSlots ⟨4, by norm_num⟩ :=
  ⟨C9_array_insert_capacity_safe.1 ⟨⟩ 300 ArrEcs.emptyCollideSlots (by norm_num),
   (C9_array_insert_capacity_safe.2 ⟨⟩ 3 ArrEcs.emptyCollideSlots _ rfl).2.1
     ⟨4, by norm_num⟩ (by norm_num)⟩

namespace MainEcs

/-- Registering a list of systems in order appends their wrapped closures
in order. -/
theorem ofList_systems (l : List (SystemReg α)) (app : App α) :
    (l.foldl (fun a s => a.add_system s.q s.callback) app).systems
      = app.systems ++ l.map wrapSystem := by
  induction l generalizing app with
  | nil => simp
  | cons s l ih =>
    obtain ⟨q, f⟩ := s
    rw [List.foldl_cons, ih]
    simp [App.add_system]

/-- Running a list of wrapped systems invokes each callback once, in list
order, on its own collect result over the given entities; store contents
are unchanged throughout, so every collect sees the initial view. -/
theorem runSystems_wrapped (l : List (SystemReg α)) (es : List Entity) (w : World) :
    (runSystems (l.map wrapSystem) es w).1
        = l.map (fun s => s.callback (es.filterMap (fun e => s.q.filterV e w.view))) ∧
    ((runSystems (l.map wrapSystem) es w).2).view = w.view := by
  induction l generalizing w with
  | nil => exact ⟨rfl, rfl⟩
  | cons s l ih =>
    have hg1 := get_components_fst s.q es w
    have hg2 := get_components_view s.q es w
    have ih2 := ih ((get_components s.q es w).2)
    constructor
    · show s.callback (get_components s.q es w).1
          :: (runSystems (l.map wrapSystem) es ((get_components s.q es w).2)).1
        = _
      rw [hg1, ih2.1, hg2, List.map_cons]
    · show ((runSystems (l.map wrapSystem) es ((get_components s.q es w).2)).2).view = w.view
      rw [ih2.2, hg2]

end MainEcs

/-- C6: `run` over an `App` built by registering a sequence of systems
invokes every registered callback exactly once, in registration order, each
against its own freshly computed collect result over the given entities;
a callback whose query matches zero entities is still invoked, on the empty
result sequence. -/
theorem C6_tick_runs_all_in_order :
    (∀ (α : Type) (l : List (MainEcs.SystemReg α)) (es : List MainEcs.Entity)
        (w : MainEcs.World),
        ((MainEcs.App.ofList l).run es w).1
          = l.map (fun s => s.callback (es.filterMap (fun e => s.q.filterV e w.view)))) ∧
    (∀ (α : Type) (q : MainEcs.Query) (f : List q.Result → α) (es : List MainEcs.Entity)
        (w : MainEcs.World),
        (MainEcs.get_components q es w).1 = [] →
          ((MainEcs.App.ofList [⟨q, f⟩]).run es w).1 = [f []]) := by
  have main : ∀ (α : Type) (l : List (MainEcs.SystemReg α)) (es : List MainEcs.Entity)
      (w : MainEcs.World),
      ((MainEcs.App.ofList l).run es w).1
        = l.map (fun s => s.callback (es.filterMap (fun e => s.q.filterV e w.view))) := by
    intro α l es w
    show (MainEcs.runSystems (MainEcs.App.ofList l).systems es w).1 = _
    rw [MainEcs.App.ofList, MainEcs.ofList_systems]
    show (MainEcs.runSystems (MainEcs.App.new.systems ++ l.map MainEcs.wrapSystem) es w).1 = _
    rw [show MainEcs.App.new.systems ++ l.map MainEcs.wrapSystem
        = l.map (MainEcs.wrapSystem) from List.nil_append _]
    exact (MainEcs.runSystems_wrapped l es w).1
  refine ⟨main, ?_⟩
  intro α q f es w h
  rw [main α [⟨q, f⟩] es w]
  rw [MainEcs.get_components_fst] at h
  simp [h]

/-- Witness for C6: a system whose query matches no entity is still
invoked, receiving the empty result sequence. -/
theorem C6_tick_runs_all_in_order_w :
    ((MainEcs.App.ofList [⟨MainEcs.Query.collideRef, fun _ => (37 : Nat)⟩]).run []
        (MainEcs.World.mk none none)).1 = [37] :=
  C6_tick_runs_all_in_order.2 Nat .collideRef (fun _ => 37) []
    (MainEcs.World.mk none none) rfl

/-- Supporting contrast for C4: the `src/main.rs` variant does implement
the destruction hook.  Destroying an entity holding `{Collide, MoveTo}`
runs each captured drop closure exactly once (one per attached component,
in attach order), removing its id from both stores; afterwards any entity
carrying the destroyed id filters to `none` for those component types, and
the drained handle makes a second destruction a no-op. -/
theorem mainrs_drop_removes_player_components :
    ∀ (w : MainEcs.World) (id : Uuid) (e2 : MainEcs.Entity), e2.id = id →
      ((MainEcs.new_player id w).1).drop_functions
          = [(MainEcs.CompTag.collide, id), (MainEcs.CompTag.moveTo, id)] ∧
      ∃ w2 : MainEcs.World,
        ((MainEcs.new_player id w).1).dropE ((MainEcs.new_player id w).2)
            = some (w2, MainEcs.Entity.mk id []) ∧
        MainEcs.orInit w2.collides id = none ∧
        MainEcs.orInit w2.moveTos id = none ∧
        MainEcs.Query.filterV .collideRef e2 w2.view = none ∧
        MainEcs.Query.filterV .moveToRef e2 w2.view = none ∧
        (MainEcs.Entity.mk id []).dropE w2 = some (w2, MainEcs.Entity.mk id []) := by
  intro w id e2 he
  refine ⟨rfl, ⟨_, rfl, ?_, ?_, ?_, ?_, rfl⟩⟩
  · simp [MainEcs.orInit, MainEcs.mapRemove, MainEcs.new_player, MainEcs.Entity.new,
      MainEcs.Entity.add_component, MainEcs.CompTag.insertComp, MainEcs.Collide.insert,
      MainEcs.MoveTo.insert, MainEcs.mapInsert]
  · simp [MainEcs.orInit, MainEcs.mapRemove, MainEcs.new_player, MainEcs.Entity.new,
      MainEcs.Entity.add_component, MainEcs.CompTag.insertComp, MainEcs.Collide.insert,
      MainEcs.MoveTo.insert, MainEcs.mapInsert]
  · simp [MainEcs.Query.filterV, MainEcs.World.view, MainEcs.orInit, MainEcs.mapRemove,
      MainEcs.new_player, MainEcs.Entity.new, MainEcs.Entity.add_component,
      MainEcs.CompTag.insertComp, MainEcs.Collide.insert, MainEcs.MoveTo.insert,
      MainEcs.mapInsert, he]
  · simp [MainEcs.Query.filterV, MainEcs.World.view, MainEcs.orInit, MainEcs.mapRemove,
      MainEcs.new_player, MainEcs.Entity.new, MainEcs.Entity.add_component,
      MainEcs.CompTag.insertComp, MainEcs.Collide.insert, MainEcs.MoveTo.insert,
      MainEcs.mapInsert, he]

/-- Instance of the `src/main.rs` destruction lemma at a concrete world
and id. -/
theorem mainrs_drop_removes_player_components_inst :
    ((MainEcs.new_player 7 (MainEcs.World.mk none none)).1).drop_functions
      = [(MainEcs.CompTag.collide, 7), (MainEcs.CompTag.moveTo, 7)] :=
  (mainrs_drop_removes_player_components (MainEcs.World.mk none none) 7
    (MainEcs.Entity.mk 7 []) rfl).1

/-- C4 (code-bug evidence): in the cited `src/main copy 2.rs` variant there
is no destruction hook at all — `Component` declares only `insert`, and the
`Copy` `Entity` has no `Drop` impl — so when an entity's handle goes out of
scope, `remove` is called on no store.  Concretely: entity id 0 attaches
`Collide` into slot 0; after its handle is destroyed the slot still holds
the value, a filter keyed to the dead id still succeeds, and a collect over
a population carrying that id still returns a result for it — the orphaned
store entry the claim and spec section 4.1 rule out. -/
theorem C4_no_cleanup_on_scope_exit :
    ∃ s1 : ArrEcs.CollideSlots,
      ArrEcs.Entity.add_component (ArrEcs.Entity.new 0).1 ⟨⟩ ArrEcs.emptyCollideSlots
          = some ((ArrEcs.Entity.new 0).1, s1) ∧
      ArrEcs.Entity.dropHandle (ArrEcs.Entity.new 0).1 s1 = s1 ∧
      ArrEcs.filterCollideArr (ArrEcs.Entity.dropHandle (ArrEcs.Entity.new 0).1 s1)
          (ArrEcs.Entity.new 0).1 = some ⟨⟩ ∧
      ArrEcs.get_components (ArrEcs.filterCollideArr
          (ArrEcs.Entity.dropHandle (ArrEcs.Entity.new 0).1 s1))
          [(ArrEcs.Entity.new 0).1] = [⟨⟩] :=
  ⟨_, rfl, rfl, rfl, rfl⟩

/-- C8: on an initialized store, `remove` detaches the value for the id
when one is present, is a no-op (the store is returned unchanged) when no
value is present, is idempotent — removing the same id twice equals
removing it once — and never fails; moreover every insert leaves the store
initialized, which is why every reachable call of the drop hook finds an
initialized store. -/
theorem C8_remove_noop_idempotent :
    (∀ (w : MainEcs.World) (m : Uuid → Option Collide) (id : Uuid),
        w.collides = some m →
          ∃ w2, MainEcs.Collide.drop id w = some w2 ∧
            MainEcs.orInit w2.collides id = none ∧
            (∀ k, k ≠ id → MainEcs.orInit w2.collides k = m k) ∧
            w2.moveTos = w.moveTos ∧
            MainEcs.Collide.drop id w2 = some w2 ∧
            (m id = none → w2 = w)) ∧
    (∀ (c : Collide) (id : Uuid) (w : MainEcs.World),
        ((MainEcs.Collide.insert c id w).collides).isSome = true) := by
  constructor
  · intro w m id h
    obtain ⟨wc, wm⟩ := w
    subst h
    refine ⟨_, rfl, ?_, ?_, rfl, ?_, ?_⟩
    · simp [MainEcs.orInit, MainEcs.mapRemove]
    · intro k hk
      simp [MainEcs.orInit, MainEcs.mapRemove, hk]
    · show some _ = some _
      congr 1
      congr 1
      congr 1
      funext k
      by_cases hk : k = id <;> simp [MainEcs.mapRemove, hk]
    · intro hnone
      congr 1
      congr 1
      funext k
      by_cases hk : k = id <;> simp [MainEcs.mapRemove, hk, hnone]
  · intro c id w
    rfl

/-- Witness for C8: removing an absent id from a concrete initialized store
succeeds and returns the store unchanged. -/
theorem C8_remove_noop_idempotent_w :
    MainEcs.Collide.drop 0 (MainEcs.World.mk (some (fun _ => none)) none)
      = some (MainEcs.World.mk (some (fun _ => none)) none) := by
  obtain ⟨w2, h1, -, -, -, -, h6⟩ :=
    C8_remove_noop_idempotent.1 (MainEcs.World.mk (some (fun _ => none)) none)
      (fun _ => none) 0 rfl
  rw [h1, h6 rfl]

/-- C10: a collect with an immutable query (single-type or joined) modifies
no component store: for every component type and entity id, the store
lookup after the collect returns the same value as before it. -/
theorem C10_immutable_collect_preserves_stores :
    ∀ (q : MainEcs.Query) (es : List MainEcs.Entity) (w : MainEcs.World),
      q.immut = true →
        (∀ id, MainEcs.orInit ((MainEcs.get_components q es w).2).collides id
            = MainEcs.orInit w.collides id) ∧
        (∀ id, MainEcs.orInit ((MainEcs.get_components q es w).2).moveTos id
            = MainEcs.orInit w.moveTos id) := by
  intro q es w _
  have h := MainEcs.get_components_view q es w
  constructor
  · intro id
    exact congrFun (congrArg MainEcs.StoreView.collides h) id
  · intro id
    exact congrFun (congrArg MainEcs.StoreView.moveTos h) id

/-- Witness for C10 on a concrete immutable query, population and store. -/
theorem C10_immutable_collect_preserves_stores_w :
    MainEcs.orInit
        ((MainEcs.get_components .collideRef [] (MainEcs.World.mk none none)).2).collides 0
      = MainEcs.orInit (MainEcs.World.mk none none).collides 0 :=
  (C10_immutable_collect_preserves_stores .collideRef [] (MainEcs.World.mk none none) rfl).1 0
